import Mathlib

/-!
Verification of the Offline Campus Helpdesk Agent (`app.py`).

The Python source is shallowly embedded: strings are Lean `String`s
(worked on through their underlying `List Char`), Python `dict` results
with a `found` discriminator become inductive result types, the
module-level corpora (`FAQ`, `GLOSSARY`, `WORKFLOWS`, the policy file
store) become an explicit `Env` record, and Python `float` scores are
modelled as exact rationals `ℚ`.

Modelling notes that apply throughout:
* Python's `\s`, `str.strip`, `str.lower` and `re` character classes are
  modelled over the ASCII range (`pyIsSpace`, `pyLower`); every string
  manipulated by the program's own logic is ASCII.
* Python `float` arithmetic (`round(x, 4)`, the `0.72` threshold) is
  modelled over `ℚ`; `pyRound4` implements Python's banker's rounding
  to four decimal places.
* All recursions are written structurally (scanner states as explicit
  accumulator/flag arguments, fuel equal to an a-priori bound on the
  recursion depth for the LCS) so that every definition evaluates
  inside the kernel.
-/

/-- Models Python's `\s` / `str.strip` whitespace class on the ASCII range. -/
def pyIsSpace (c : Char) : Bool :=
  c = ' ' || c = '\t' || c = '\n' || c = '\r' || c = '\x0b' || c = '\x0c'

/-- Models Python's `str.lower` on the ASCII range, written as an explicit
`A..Z` table. -/
def pyLower (c : Char) : Char :=
  if c = 'A' then 'a' else if c = 'B' then 'b' else if c = 'C' then 'c'
  else if c = 'D' then 'd' else if c = 'E' then 'e' else if c = 'F' then 'f'
  else if c = 'G' then 'g' else if c = 'H' then 'h' else if c = 'I' then 'i'
  else if c = 'J' then 'j' else if c = 'K' then 'k' else if c = 'L' then 'l'
  else if c = 'M' then 'm' else if c = 'N' then 'n' else if c = 'O' then 'o'
  else if c = 'P' then 'p' else if c = 'Q' then 'q' else if c = 'R' then 'r'
  else if c = 'S' then 's' else if c = 'T' then 't' else if c = 'U' then 'u'
  else if c = 'V' then 'v' else if c = 'W' then 'w' else if c = 'X' then 'x'
  else if c = 'Y' then 'y' else if c = 'Z' then 'z' else c

/-- Models Python's `str.strip()` : drop whitespace from both ends. -/
def pyStrip (l : List Char) : List Char :=
  ((l.dropWhile pyIsSpace).reverse.dropWhile pyIsSpace).reverse

/-- Scanner for `collapseWs`; the flag records whether the scanner is
currently inside a whitespace run (whose single replacement `' '` has
already been emitted). -/
def collapseGo : Bool → List Char → List Char
  | _, [] => []
  | inRun, c :: cs =>
    if pyIsSpace c then
      (if inRun then collapseGo true cs else ' ' :: collapseGo true cs)
    else c :: collapseGo false cs

/-- Models `re.sub(r"\s+", " ", ·)` : replace every whitespace run by one space. -/
def collapseWs (l : List Char) : List Char := collapseGo false l

/-- Embeds `normalize` from `app.py`:
`re.sub(r"\s+", " ", text.strip().lower())`. -/
def normalizeL (l : List Char) : List Char :=
  collapseWs ((pyStrip l).map pyLower)

/-- String-level wrapper for `normalizeL`. -/
def normalizeS (s : String) : String := ⟨normalizeL s.data⟩

/-- Character class `[a-z0-9-]` kept by `slugify`. -/
def slugKeep (c : Char) : Bool :=
  ('a' ≤ c && c ≤ 'z') || ('0' ≤ c && c ≤ '9') || c = '-'

/-- Embeds `slugify` from `app.py`:
`re.sub(r"[^a-z0-9\-]", "", normalize(s).replace(" ", "-"))`. -/
def slugifyL (l : List Char) : List Char :=
  ((normalizeL l).map (fun c => if c = ' ' then '-' else c)).filter slugKeep

/-- String-level wrapper for `slugifyL`. -/
def slugifyS (s : String) : String := ⟨slugifyL s.data⟩

-- sanity checks on concrete inputs
example : normalizeS "  Attendance   Policy " = "attendance policy" := by decide
example : slugifyS "Re-Evaluation!!" = "re-evaluation" := by decide

/-! ### Character-level lemmas for `slugify` (claim C8) -/

theorem dropWhile_eq_self_of (p : Char → Bool) (l : List Char)
    (h : ∀ c ∈ l, p c = false) : l.dropWhile p = l := by
  cases l with
  | nil => rfl
  | cons a l =>
    rw [List.dropWhile_cons, h a (by simp)]
    simp

theorem pyStrip_eq_self (l : List Char) (h : ∀ c ∈ l, pyIsSpace c = false) :
    pyStrip l = l := by
  unfold pyStrip
  rw [dropWhile_eq_self_of _ _ h, dropWhile_eq_self_of _ _ (by simpa using h),
    List.reverse_reverse]

theorem collapseGo_eq_self (l : List Char) (h : ∀ c ∈ l, pyIsSpace c = false) :
    collapseGo false l = l := by
  induction l with
  | nil => rfl
  | cons a l ih =>
    rw [collapseGo, h a (by simp)]
    simp only [Bool.false_eq_true, if_false]
    rw [ih (fun c hc => h c (by simp [hc]))]

theorem slugKeep_not_space {c : Char} (h : slugKeep c = true) :
    pyIsSpace c = false := by
  unfold pyIsSpace
  simp only [Bool.or_eq_false_iff, decide_eq_false_iff_not]
  refine ⟨⟨⟨⟨⟨?_, ?_⟩, ?_⟩, ?_⟩, ?_⟩, ?_⟩ <;>
    · rintro rfl; revert h; decide

/-- Uppercase ASCII letters (the domain on which `pyLower` acts). -/
def upperChars : List Char :=
  ['A','B','C','D','E','F','G','H','I','J','K','L','M',
   'N','O','P','Q','R','S','T','U','V','W','X','Y','Z']

/-- Lowercase ASCII letters (the range of `pyLower` on `upperChars`). -/
def lowerChars : List Char :=
  ['a','b','c','d','e','f','g','h','i','j','k','l','m',
   'n','o','p','q','r','s','t','u','v','w','x','y','z']

set_option maxRecDepth 2000 in
theorem pyLower_eq_self_of_not_upper {c : Char} (hc : c ∉ upperChars) :
    pyLower c = c := by
  unfold pyLower
  rw [if_neg (fun hEq : c = 'A' => hc (by rw [hEq]; decide))]
  rw [if_neg (fun hEq : c = 'B' => hc (by rw [hEq]; decide))]
  rw [if_neg (fun hEq : c = 'C' => hc (by rw [hEq]; decide))]
  rw [if_neg (fun hEq : c = 'D' => hc (by rw [hEq]; decide))]
  rw [if_neg (fun hEq : c = 'E' => hc (by rw [hEq]; decide))]
  rw [if_neg (fun hEq : c = 'F' => hc (by rw [hEq]; decide))]
  rw [if_neg (fun hEq : c = 'G' => hc (by rw [hEq]; decide))]
  rw [if_neg (fun hEq : c = 'H' => hc (by rw [hEq]; decide))]
  rw [if_neg (fun hEq : c = 'I' => hc (by rw [hEq]; decide))]
  rw [if_neg (fun hEq : c = 'J' => hc (by rw [hEq]; decide))]
  rw [if_neg (fun hEq : c = 'K' => hc (by rw [hEq]; decide))]
  rw [if_neg (fun hEq : c = 'L' => hc (by rw [hEq]; decide))]
  rw [if_neg (fun hEq : c = 'M' => hc (by rw [hEq]; decide))]
  rw [if_neg (fun hEq : c = 'N' => hc (by rw [hEq]; decide))]
  rw [if_neg (fun hEq : c = 'O' => hc (by rw [hEq]; decide))]
  rw [if_neg (fun hEq : c = 'P' => hc (by rw [hEq]; decide))]
  rw [if_neg (fun hEq : c = 'Q' => hc (by rw [hEq]; decide))]
  rw [if_neg (fun hEq : c = 'R' => hc (by rw [hEq]; decide))]
  rw [if_neg (fun hEq : c = 'S' => hc (by rw [hEq]; decide))]
  rw [if_neg (fun hEq : c = 'T' => hc (by rw [hEq]; decide))]
  rw [if_neg (fun hEq : c = 'U' => hc (by rw [hEq]; decide))]
  rw [if_neg (fun hEq : c = 'V' => hc (by rw [hEq]; decide))]
  rw [if_neg (fun hEq : c = 'W' => hc (by rw [hEq]; decide))]
  rw [if_neg (fun hEq : c = 'X' => hc (by rw [hEq]; decide))]
  rw [if_neg (fun hEq : c = 'Y' => hc (by rw [hEq]; decide))]
  rw [if_neg (fun hEq : c = 'Z' => hc (by rw [hEq]; decide))]

theorem pyLower_cases (c : Char) :
    (c ∈ upperChars ∧ pyLower c ∈ lowerChars) ∨ (c ∉ upperChars ∧ pyLower c = c) := by
  by_cases hc : c ∈ upperChars
  · left
    refine ⟨hc, ?_⟩
    simp only [upperChars, List.mem_cons, List.not_mem_nil, or_false] at hc
    rcases hc with rfl|rfl|rfl|rfl|rfl|rfl|rfl|rfl|rfl|rfl|rfl|rfl|rfl|rfl|rfl|rfl|rfl|rfl|rfl|rfl|rfl|rfl|rfl|rfl|rfl|rfl
    all_goals decide
  · right
    exact ⟨hc, pyLower_eq_self_of_not_upper hc⟩

theorem slugKeep_lower {c : Char} (h : slugKeep c = true) : pyLower c = c := by
  rcases pyLower_cases c with ⟨hmem, _⟩ | ⟨_, heq⟩
  · have : slugKeep c = false :=
      of_decide_eq_true (List.all_eq_true.mp
        (by decide : upperChars.all (fun k => decide (slugKeep k = false)) = true) c hmem)
    rw [h] at this
    cases this
  · exact heq

theorem pyLower_not_space {c : Char} (h : pyIsSpace c = false) :
    pyIsSpace (pyLower c) = false := by
  rcases pyLower_cases c with ⟨_, hmem⟩ | ⟨_, heq⟩
  · exact of_decide_eq_true (List.all_eq_true.mp
      (by decide : lowerChars.all (fun k => decide (pyIsSpace k = false)) = true) _ hmem)
  · rw [heq]; exact h

theorem slugKeep_not_blank {c : Char} (h : slugKeep c = true) : c ≠ ' ' := by
  rintro rfl; revert h; decide

theorem slugifyL_all_keep (l : List Char) : ∀ c ∈ slugifyL l, slugKeep c = true := by
  intro c hc
  exact List.of_mem_filter hc

theorem slugifyL_of_all_keep (l : List Char) (h : ∀ c ∈ l, slugKeep c = true) :
    slugifyL l = l := by
  unfold slugifyL normalizeL collapseWs
  rw [pyStrip_eq_self l (fun c hc => slugKeep_not_space (h c hc))]
  rw [List.map_congr_left (fun c hc => slugKeep_lower (h c hc)), List.map_id']
  rw [collapseGo_eq_self l (fun c hc => slugKeep_not_space (h c hc))]
  rw [List.map_congr_left (fun c hc => if_neg (slugKeep_not_blank (h c hc))),
    List.map_id']
  exact List.filter_eq_self.mpr h

theorem slugifyL_idem (l : List Char) : slugifyL (slugifyL l) = slugifyL l :=
  slugifyL_of_all_keep _ (slugifyL_all_keep l)

/-- C8: `slugify` (which applies `normalize`, turns spaces into hyphens and
strips every character outside `[a-z0-9-]`) is idempotent, its output uses
only the charset `[a-z0-9-]`, and `slugify("Re-Evaluation!!") = "re-evaluation"`. -/
theorem claim_C8 :
    (∀ x : String, slugifyS (slugifyS x) = slugifyS x) ∧
    (∀ x : String, (slugifyS x).data.all slugKeep = true) ∧
    slugifyS "Re-Evaluation!!" = "re-evaluation" := by
  refine ⟨fun x => ?_, fun x => ?_, by decide⟩
  · show String.mk (slugifyL (slugifyL x.data)) = String.mk (slugifyL x.data)
    rw [slugifyL_idem]
  · exact List.all_eq_true.mpr (fun c hc => slugifyL_all_keep _ c hc)

/-! ### Similarity primitive (claim C9)

`app.py` scores strings with `fuzz.token_set_ratio` from the external
`rapidfuzz` dependency, whose code is not part of this repository. -/

/-- Scanner for `pySplit`; the accumulator holds the reversed characters of
the token currently being read, if any. -/
def pySplitGo : Option (List Char) → List Char → List (List Char)
  | none, [] => []
  | some t, [] => [t.reverse]
  | none, c :: cs =>
    if pyIsSpace c then pySplitGo none cs else pySplitGo (some [c]) cs
  | some t, c :: cs =>
    if pyIsSpace c then t.reverse :: pySplitGo none cs
    else pySplitGo (some (c :: t)) cs

/-- Models Python's `str.split()` with no argument: split on whitespace
runs, never producing empty tokens. -/
def pySplit (l : List Char) : List (List Char) := pySplitGo none l

/-- Lexicographic (code-point) order on token strings, as used by Python's
`sorted` on the token sets. -/
def lexLe : List Char → List Char → Bool
  | [], _ => true
  | _ :: _, [] => false
  | a :: as, b :: bs => if a < b then true else if b < a then false else lexLe as bs

/-- Propositional form of `lexLe`. -/
def LexLeP (a b : List Char) : Prop := lexLe a b = true

instance : DecidableRel LexLeP := fun a b =>
  inferInstanceAs (Decidable (lexLe a b = true))

theorem lexLe_total : ∀ a b : List Char, lexLe a b = true ∨ lexLe b a = true := by
  intro a
  induction a with
  | nil => intro b; left; rfl
  | cons x as ih =>
    intro b
    cases b with
    | nil => right; rfl
    | cons y bs =>
      rcases lt_trichotomy x y with h | h | h
      · left; simp [lexLe, h]
      · subst h
        rcases ih bs with h2 | h2
        · left; simp [lexLe, lt_irrefl, h2]
        · right; simp [lexLe, lt_irrefl, h2]
      · right; simp [lexLe, h]

theorem lexLe_antisymm : ∀ a b : List Char,
    lexLe a b = true → lexLe b a = true → a = b := by
  intro a
  induction a with
  | nil =>
    intro b _ hba
    cases b with
    | nil => rfl
    | cons y bs => exact absurd hba (by simp [lexLe])
  | cons x as ih =>
    intro b hab hba
    cases b with
    | nil => exact absurd hab (by simp [lexLe])
    | cons y bs =>
      rcases lt_trichotomy x y with h | h | h
      · rw [lexLe, if_neg (asymm h), if_pos h] at hba
        exact absurd hba (by simp)
      · subst h
        rw [lexLe, if_neg (lt_irrefl x), if_neg (lt_irrefl x)] at hab hba
        rw [ih bs hab hba]
      · rw [lexLe, if_neg (asymm h), if_pos h] at hab
        exact absurd hab (by simp)

theorem lexLe_trans : ∀ a b c : List Char,
    lexLe a b = true → lexLe b c = true → lexLe a c = true := by
  intro a
  induction a with
  | nil => intro b c _ _; rfl
  | cons x as ih =>
    intro b c hab hbc
    cases b with
    | nil => exact absurd hab (by simp [lexLe])
    | cons y bs =>
      cases c with
      | nil => exact absurd hbc (by simp [lexLe])
      | cons z cs =>
        rw [lexLe] at hab hbc ⊢
        rcases lt_trichotomy x y with h1 | h1 | h1
        · rcases lt_trichotomy y z with h2 | h2 | h2
          · simp [lt_trans h1 h2]
          · subst h2; simp [h1]
          · rw [if_neg (asymm h2), if_pos h2] at hbc
            exact absurd hbc (by simp)
        · subst h1
          rcases lt_trichotomy x z with h2 | h2 | h2
          · simp [h2]
          · subst h2
            rw [if_neg (lt_irrefl x), if_neg (lt_irrefl x)] at hab hbc ⊢
            exact ih bs cs hab hbc
          · rw [if_neg (asymm h2), if_pos h2] at hbc
            exact absurd hbc (by simp)
        · rw [if_neg (asymm h1), if_pos h1] at hab
          exact absurd hab (by simp)

instance : IsTotal (List Char) LexLeP := ⟨lexLe_total⟩

instance : IsTrans (List Char) LexLeP := ⟨lexLe_trans⟩

instance : IsAntisymm (List Char) LexLeP := ⟨lexLe_antisymm⟩

/-- Models Python's `sorted` on a list of distinct tokens. -/
def sortTokens (l : List (List Char)) : List (List Char) :=
  List.insertionSort LexLeP l

theorem sortTokens_eq_of_perm {l1 l2 : List (List Char)} (h : l1.Perm l2) :
    sortTokens l1 = sortTokens l2 :=
  List.eq_of_perm_of_sorted
    (((List.perm_insertionSort _ l1).trans h).trans
      (List.perm_insertionSort _ l2).symm)
    (List.sorted_insertionSort _ l1) (List.sorted_insertionSort _ l2)

/-- Models `" ".join(tokens)`. -/
def joinSp : List (List Char) → List Char
  | [] => []
  | [t] => t
  | t :: ts => t ++ ' ' :: joinSp ts

/-- Fuel-indexed longest-common-subsequence length; the fuel is always
instantiated with `|a| + |b|`, which bounds the recursion depth. -/
def lcsF : ℕ → List Char → List Char → ℕ
  | 0, _, _ => 0
  | _ + 1, [], _ => 0
  | _ + 1, _ :: _, [] => 0
  | f + 1, a :: as, b :: bs =>
    if a = b then lcsF f as bs + 1
    else max (lcsF f (a :: as) bs) (lcsF f as (b :: bs))

/-- Longest common subsequence length of two character lists. -/
def lcsLen (a b : List Char) : ℕ := lcsF (a.length + b.length) a b

/-- Kernel-computable product on `ℚ`. Batteries marks `Rat.mul`, `Rat.add`,
`Rat.sub`, `Rat.inv` `@[irreducible]`, which blocks kernel evaluation;
these wrappers compute through `Rat.divInt` and are proved equal to the
standard operations. -/
def qMul (a b : ℚ) : ℚ := Rat.divInt (a.num * b.num) ((a.den : ℤ) * (b.den : ℤ))

/-- Kernel-computable difference on `ℚ`; see `qMul`. -/
def qSub (a b : ℚ) : ℚ :=
  Rat.divInt (a.num * (b.den : ℤ) - b.num * (a.den : ℤ)) ((a.den : ℤ) * (b.den : ℤ))

/-- Kernel-computable quotient on `ℚ`; see `qMul`. -/
def qDiv (a b : ℚ) : ℚ := Rat.divInt (a.num * (b.den : ℤ)) ((a.den : ℤ) * b.num)

theorem qMul_eq (a b : ℚ) : qMul a b = a * b := by
  unfold qMul
  rw [Rat.divInt_eq_div]
  push_cast
  conv_rhs => rw [← Rat.num_div_den a, ← Rat.num_div_den b]
  rw [div_mul_div_comm]

theorem qSub_eq (a b : ℚ) : qSub a b = a - b := by
  unfold qSub
  rw [Rat.divInt_eq_div]
  push_cast
  conv_rhs => rw [← Rat.num_div_den a, ← Rat.num_div_den b]
  rw [div_sub_div _ _ (by exact_mod_cast a.den_nz) (by exact_mod_cast b.den_nz)]
  congr 1
  ring

theorem qDiv_eq (a b : ℚ) : qDiv a b = a / b := by
  unfold qDiv
  by_cases hb : b = 0
  · subst hb
    rw [show ((0 : ℚ).num) = 0 from rfl, mul_zero, Rat.divInt_zero, div_zero]
  · rw [Rat.divInt_eq_div]
    push_cast
    have hbn : (b.num : ℚ) ≠ 0 := by
      exact_mod_cast Rat.num_ne_zero.mpr hb
    have had : ((a.den : ℚ)) ≠ 0 := by exact_mod_cast a.den_nz
    have hbd : ((b.den : ℚ)) ≠ 0 := by exact_mod_cast b.den_nz
    conv_rhs => rw [← Rat.num_div_den a, ← Rat.num_div_den b]
    field_simp

/-- Models rapidfuzz's `fuzz.ratio`: the normalized InDel similarity
`100 * 2*lcs/(|a|+|b|)`, with the convention `ratio("","") = 100`. -/
def ratioQ (a b : List Char) : ℚ :=
  if a.length + b.length = 0 then 100
  else qDiv ((200 * lcsLen a b : ℕ) : ℚ) ((a.length + b.length : ℕ) : ℚ)

/-- Token set of a string: Python's `set(s.split())`, modelled as the
deduplicated token list (only membership and the sorted enumeration of the
set are ever consumed). -/
def tokenSet (l : List Char) : List (List Char) := (pySplit l).dedup

/-- Token-set intersection, as a filter on the first operand. -/
def interTokens (ta tb : List (List Char)) : List (List Char) :=
  ta.filter (fun t => tb.contains t)

/-- Token-set difference, as a filter on the first operand. -/
def diffTokens (ta tb : List (List Char)) : List (List Char) :=
  ta.filter (fun t => !(tb.contains t))

/-- Final step of `token_set_ratio` when neither early return fires: the
maximum pairwise `ratio` between the joined sorted intersection and the two
combined (intersection + difference) strings. -/
def tsrTail (inter dab dba : List (List Char)) : ℚ :=
  let sect := joinSp (sortTokens inter)
  let t1 := pyStrip (sect ++ ' ' :: joinSp (sortTokens dab))
  let t2 := pyStrip (sect ++ ' ' :: joinSp (sortTokens dba))
  max (max (ratioQ (pyStrip sect) t1) (ratioQ (pyStrip sect) t2)) (ratioQ t1 t2)

/-- Modelled from the spec: the FuzzyMatcher similarity primitive
(§4.3, "token-set based similarity"), i.e. `fuzz.token_set_ratio` of the
external `rapidfuzz` dependency, which is not part of this repository.
Embedded following the published token-set-ratio algorithm: split both
sides into token sets; empty token set on either side scores 0; if the
sets intersect and one is a subset of the other, score 100; otherwise
join the sorted intersection and the two sorted differences and return
the maximum pairwise `ratio` between `sect`, `sect + diff_ab` and
`sect + diff_ba`. -/
def tsr (s1 s2 : List Char) : ℚ :=
  let ta := tokenSet s1
  let tb := tokenSet s2
  if ta.isEmpty || tb.isEmpty then 0
  else if !(interTokens ta tb).isEmpty &&
      ((diffTokens ta tb).isEmpty || (diffTokens tb ta).isEmpty) then 100
  else tsrTail (interTokens ta tb) (diffTokens ta tb) (diffTokens tb ta)

/-- String-level wrapper for `tsr`. -/
def tsrS (a b : String) : ℚ := tsr a.data b.data

-- sanity checks
example : tsrS "transcript" "transcript request" = 100 := by decide
example : tsrS "" "x" = 0 := by decide

/-! ### Symmetry and self-similarity of the similarity primitive -/

theorem lcsF_comm (f : ℕ) : ∀ a b : List Char, lcsF f a b = lcsF f b a := by
  induction f with
  | zero => intro a b; rfl
  | succ f ih =>
    intro a b
    cases a with
    | nil => cases b with | nil => rfl | cons y bs => rfl
    | cons x as =>
      cases b with
      | nil => rfl
      | cons y bs =>
        by_cases hxy : x = y
        · subst hxy
          rw [lcsF, lcsF, if_pos rfl, if_pos rfl, ih]
        · rw [lcsF, lcsF, if_neg hxy, if_neg (Ne.symm hxy),
            ih (x :: as) bs, ih as (y :: bs), max_comm]

theorem ratioQ_comm (a b : List Char) : ratioQ a b = ratioQ b a := by
  unfold ratioQ lcsLen
  rw [lcsF_comm, Nat.add_comm a.length b.length]

theorem ratioQ_nonneg (a b : List Char) : 0 ≤ ratioQ a b := by
  unfold ratioQ
  split
  · norm_num
  · rw [qDiv_eq]
    apply div_nonneg
    · positivity
    · positivity

theorem tsrTail_congr {i1 i2 dab dba : List (List Char)}
    (h : sortTokens i1 = sortTokens i2) :
    tsrTail i1 dab dba = tsrTail i2 dba dab := by
  unfold tsrTail
  dsimp only
  rw [h]
  rw [max_comm
    (ratioQ (pyStrip (joinSp (sortTokens i2)))
      (pyStrip (joinSp (sortTokens i2) ++ ' ' :: joinSp (sortTokens dab))))
    (ratioQ (pyStrip (joinSp (sortTokens i2)))
      (pyStrip (joinSp (sortTokens i2) ++ ' ' :: joinSp (sortTokens dba))))]
  rw [ratioQ_comm (pyStrip (joinSp (sortTokens i2) ++ ' ' :: joinSp (sortTokens dab)))
    (pyStrip (joinSp (sortTokens i2) ++ ' ' :: joinSp (sortTokens dba)))]

theorem interTokens_eq_nil_iff (ta tb : List (List Char)) :
    interTokens ta tb = [] ↔ ∀ t ∈ ta, t ∉ tb := by
  unfold interTokens
  rw [List.filter_eq_nil_iff]
  constructor
  · intro h t ht htb
    exact h t ht (by rw [List.elem_iff]; exact htb)
  · intro h t ht hc
    rw [List.elem_iff] at hc
    exact h t ht hc

theorem interTokens_isEmpty_comm (ta tb : List (List Char)) :
    (interTokens ta tb).isEmpty = (interTokens tb ta).isEmpty := by
  rw [Bool.eq_iff_iff, List.isEmpty_iff, List.isEmpty_iff,
    interTokens_eq_nil_iff, interTokens_eq_nil_iff]
  constructor
  · intro h t htb hta
    exact h t hta htb
  · intro h t hta htb
    exact h t htb hta

theorem sort_interTokens_comm {ta tb : List (List Char)}
    (ha : ta.Nodup) (hb : tb.Nodup) :
    sortTokens (interTokens ta tb) = sortTokens (interTokens tb ta) := by
  apply sortTokens_eq_of_perm
  unfold interTokens
  rw [List.perm_ext_iff_of_nodup (ha.filter _) (hb.filter _)]
  intro x
  simp only [List.mem_filter, List.elem_iff]
  exact and_comm

theorem tsr_comm (s1 s2 : List Char) : tsr s1 s2 = tsr s2 s1 := by
  have ha : (tokenSet s1).Nodup := List.nodup_dedup _
  have hb : (tokenSet s2).Nodup := List.nodup_dedup _
  simp only [tsr]
  rw [Bool.or_comm (tokenSet s1).isEmpty (tokenSet s2).isEmpty]
  by_cases h0 : ((tokenSet s2).isEmpty || (tokenSet s1).isEmpty) = true
  · rw [if_pos h0, if_pos h0]
  · rw [if_neg h0, if_neg h0]
    rw [interTokens_isEmpty_comm (tokenSet s1) (tokenSet s2),
      Bool.or_comm (diffTokens (tokenSet s1) (tokenSet s2)).isEmpty
        (diffTokens (tokenSet s2) (tokenSet s1)).isEmpty]
    by_cases h1 : (!(interTokens (tokenSet s2) (tokenSet s1)).isEmpty &&
        ((diffTokens (tokenSet s2) (tokenSet s1)).isEmpty ||
          (diffTokens (tokenSet s1) (tokenSet s2)).isEmpty)) = true
    · rw [if_pos h1, if_pos h1]
    · rw [if_neg h1, if_neg h1]
      exact tsrTail_congr (sort_interTokens_comm ha hb)

theorem tsr_nonneg (s1 s2 : List Char) : 0 ≤ tsr s1 s2 := by
  simp only [tsr]
  split
  · norm_num
  · split
    · norm_num
    · exact le_trans (ratioQ_nonneg _ _) (le_max_right _ _)

theorem pySplitGo_some_ne_nil (t cs : List Char) :
    pySplitGo (some t) cs ≠ [] := by
  induction cs generalizing t with
  | nil => simp [pySplitGo]
  | cons c cs ih =>
    simp only [pySplitGo]
    by_cases hc : pyIsSpace c = true
    · rw [if_pos hc]; simp
    · rw [if_neg hc]; exact ih _

theorem pySplit_ne_nil : ∀ (m : List Char) (c : Char),
    c ∈ m → pyIsSpace c = false → pySplit m ≠ [] := by
  intro m
  induction m with
  | nil => intro c hc; cases hc
  | cons a cs ih =>
    intro c hc hw
    show pySplitGo none (a :: cs) ≠ []
    simp only [pySplitGo]
    by_cases ha : pyIsSpace a = true
    · rw [if_pos ha]
      rcases List.mem_cons.mp hc with rfl | hmem
      · rw [ha] at hw; cases hw
      · exact ih c hmem hw
    · rw [if_neg ha]
      exact pySplitGo_some_ne_nil [a] cs

theorem dropWhile_exists_not (p : Char → Bool) :
    ∀ m : List Char, m.dropWhile p ≠ [] → ∃ c ∈ m.dropWhile p, p c = false := by
  intro m
  induction m with
  | nil => intro h; exact absurd rfl h
  | cons a cs ih =>
    intro h
    rw [List.dropWhile_cons] at h ⊢
    by_cases ha : p a = true
    · rw [if_pos ha] at h ⊢; exact ih h
    · rw [if_neg ha] at h ⊢
      exact ⟨a, List.mem_cons_self a _, by simpa using ha⟩

theorem pyStrip_exists_nonspace (l : List Char) (h : pyStrip l ≠ []) :
    ∃ c ∈ pyStrip l, pyIsSpace c = false := by
  unfold pyStrip at h ⊢
  have h2 : (l.dropWhile pyIsSpace).reverse.dropWhile pyIsSpace ≠ [] := by
    intro hh
    exact h (by rw [hh]; rfl)
  obtain ⟨c, hc, hw⟩ := dropWhile_exists_not _ _ h2
  exact ⟨c, List.mem_reverse.mpr hc, hw⟩

theorem mem_collapseGo : ∀ (m : List Char) (b : Bool) (c : Char),
    c ∈ m → pyIsSpace c = false → c ∈ collapseGo b m := by
  intro m
  induction m with
  | nil => intro b c hc; cases hc
  | cons a cs ih =>
    intro b c hc hw
    rw [collapseGo]
    by_cases ha : pyIsSpace a = true
    · rw [if_pos ha]
      have hmem : c ∈ cs := by
        rcases List.mem_cons.mp hc with rfl | h2
        · rw [ha] at hw; cases hw
        · exact h2
      split
      · exact ih true c hmem hw
      · exact List.mem_cons_of_mem _ (ih true c hmem hw)
    · rw [if_neg ha]
      rcases List.mem_cons.mp hc with rfl | h2
      · exact List.mem_cons_self _ _
      · exact List.mem_cons_of_mem _ (ih false c h2 hw)

theorem tokenSet_normalize_ne_nil (l : List Char) (h : normalizeL l ≠ []) :
    tokenSet (normalizeL l) ≠ [] := by
  have hps : pyStrip l ≠ [] := by
    intro hh
    exact h (by unfold normalizeL collapseWs; rw [hh]; rfl)
  obtain ⟨c, hc, hw⟩ := pyStrip_exists_nonspace l hps
  have hmem : pyLower c ∈ normalizeL l :=
    mem_collapseGo _ false _ (List.mem_map_of_mem _ hc) (pyLower_not_space hw)
  unfold tokenSet
  rw [Ne, List.dedup_eq_nil]
  exact pySplit_ne_nil _ _ hmem (pyLower_not_space hw)

theorem tsr_self_100 {s : List Char} (h : tokenSet s ≠ []) : tsr s s = 100 := by
  have hE : (tokenSet s).isEmpty = false := by
    rcases Bool.eq_false_or_eq_true (tokenSet s).isEmpty with hh | hh
    · exact absurd (List.isEmpty_iff.mp hh) h
    · exact hh
  have hInter : interTokens (tokenSet s) (tokenSet s) = tokenSet s :=
    List.filter_eq_self.mpr (fun t ht => List.elem_iff.mpr ht)
  have hDiff : diffTokens (tokenSet s) (tokenSet s) = [] :=
    List.filter_eq_nil_iff.mpr (fun t ht => by simp [List.elem_iff, ht])
  simp only [tsr]
  rw [hInter, hDiff, hE]
  simp

/-- C9: the similarity primitive shared by FAQLookup and WorkflowGuide
(token-set ratio) is symmetric in its two arguments, and scores exactly 100
on two equal, non-empty, normalized arguments. -/
theorem claim_C9 :
    (∀ a b : String, tsrS a b = tsrS b a) ∧
    (∀ a : String, normalizeS a ≠ "" → tsrS (normalizeS a) (normalizeS a) = 100) := by
  constructor
  · intro a b
    exact tsr_comm a.data b.data
  · intro a h
    apply tsr_self_100
    show tokenSet (normalizeL a.data) ≠ []
    apply tokenSet_normalize_ne_nil
    intro hh
    exact h (show String.mk (normalizeL a.data) = "" by rw [hh])

/-- Witness for C9 at concrete inputs. -/
theorem claim_C9_witness :
    tsrS "ok go" "go ok" = tsrS "go ok" "ok go" ∧
    (normalizeS "Fees" ≠ "" ∧ tsrS (normalizeS "Fees") (normalizeS "Fees") = 100) :=
  ⟨claim_C9.1 "ok go" "go ok", by decide, claim_C9.2 "Fees" (by decide)⟩

/-! ### Data model: corpora and result dictionaries -/

/-- One FAQ corpus entry (`{"id": ..., "q": ..., "a": ...}`). -/
structure FaqEntry where
  id : String
  q : String
  a : String
deriving DecidableEq

/-- One workflow corpus entry. -/
structure Workflow where
  id : String
  name : String
  steps : List String
  required_docs : List String
  template_id : Option String
deriving DecidableEq

/-- One parsed policy section (`{"heading": ..., "body": ...}`). -/
structure PolicySection where
  heading : String
  body : String
deriving DecidableEq

/-- The module-level corpora of `app.py` (`FAQ`, `GLOSSARY`, `WORKFLOWS`)
and the policy file store (`_read_policy_file`, keyed by topic slug),
made explicit. Glossary entries carry Python's `dict` insertion order. -/
structure Env where
  faq : List FaqEntry
  glossary : List (String × List String)
  workflows : List Workflow
  policies : String → Option String

/-- Computable floor of a rational (`num.fdiv den`; the denominator is
positive, so this is the mathematical floor). -/
def ratFloor (x : ℚ) : ℤ := x.num.fdiv x.den

/-- Models Python's `round(x, 4)`: round half to even at four decimals. -/
def pyRound4 (x : ℚ) : ℚ :=
  let y := qMul x 10000
  let f : ℤ := ratFloor y
  let r : ℚ := qSub y (f : ℚ)
  let n : ℤ :=
    if r < Rat.divInt 1 2 then f
    else if Rat.divInt 1 2 < r then f + 1
    else if f % 2 = 0 then f else f + 1
  qDiv (n : ℚ) 10000

example : pyRound4 1 = 1 := by decide
example : pyRound4 (Rat.divInt 85 100) = Rat.divInt 85 100 := by decide
example : pyRound4 (Rat.divInt 123456 1000000) = Rat.divInt 1235 10000 := by decide

/-- Result dictionary of `faq_lookup`: `notFound` is `{"found": False,
"score": 0}`; `found score q a id` is the success dictionary. -/
inductive FaqResult where
  | notFound : FaqResult
  | found : ℚ → String → String → String → FaqResult
deriving DecidableEq

/-- Models `faq.get("found")` truthiness. -/
def FaqResult.foundB : FaqResult → Bool
  | .notFound => false
  | .found _ _ _ _ => true

/-- Models `faq.get("score", 0)`. -/
def FaqResult.score : FaqResult → ℚ
  | .notFound => 0
  | .found s _ _ _ => s

/-- Models `faq["answer"]` (only meaningful on `found`). -/
def FaqResult.answer : FaqResult → String
  | .notFound => ""
  | .found _ _ a _ => a

/-! ### GlossaryExpander and FAQLookup -/

/-- Character class `[a-zA-Z-]` of the word regex in
`expand_query_with_glossary`. -/
def isWordChar (c : Char) : Bool :=
  ('a' ≤ c && c ≤ 'z') || ('A' ≤ c && c ≤ 'Z') || c = '-'

/-- Scanner for `findWords`; accumulator as in `pySplitGo`. -/
def findTokensGo : Option (List Char) → List Char → List (List Char)
  | none, [] => []
  | some t, [] => [t.reverse]
  | none, c :: cs =>
    if isWordChar c then findTokensGo (some [c]) cs else findTokensGo none cs
  | some t, c :: cs =>
    if isWordChar c then findTokensGo (some (c :: t)) cs
    else t.reverse :: findTokensGo none cs

/-- Models `re.findall(r"[a-zA-Z\-]+", ·)`: maximal runs of word chars. -/
def findWords (l : List Char) : List (List Char) := findTokensGo none l

/-- Embeds `expand_query_with_glossary` from `app.py`. Python returns
`list(set(...))` in unspecified order; only the maximum similarity over the
variants is ever consumed downstream, for which duplicates and order are
irrelevant, so the set is modelled as the list enumerating `normalize(q)`
followed by the synonym lists of every matching glossary entry. -/
def expand_query_with_glossary (env : Env) (q : String) : List String :=
  let words := (findWords (normalizeS q).data).map String.mk
  normalizeS q ::
    (env.glossary.filter (fun kv => words.any (fun w => kv.2.contains w))).flatMap
      (fun kv => kv.2)

/-- Per-entry similarity of `faq_lookup`:
`max((token_set_ratio(v, fq) for v in variants), default=token_set_ratio(query, fq))`. -/
def entryScore (env : Env) (query fq : String) : ℚ :=
  match (expand_query_with_glossary env query).map (fun v => tsrS v fq) with
  | [] => tsrS query fq
  | s :: ss => ss.foldl max s

/-- Best-entry scan of `faq_lookup`: `best_score` starts at `-1`; the
`best_idx = -1` sentinel together with the later `FAQ[best_idx]` access is
modelled as an `Option` holding the best index and entry; a strictly
greater score replaces the stored best. -/
def faqScan (env : Env) (query : String) :
    List FaqEntry → ℕ → ℚ → Option (ℕ × FaqEntry) → ℚ × Option (ℕ × FaqEntry)
  | [], _, bs, bi => (bs, bi)
  | e :: es, i, bs, bi =>
    let sc := entryScore env query e.q
    if bs < sc then faqScan env query es (i + 1) sc (some (i, e))
    else faqScan env query es (i + 1) bs bi

/-- Embeds `faq_lookup` from `app.py`. -/
def faq_lookup (env : Env) (query : String) : FaqResult :=
  match faqScan env query env.faq 0 (-1) none with
  | (_, none) => .notFound
  | (bs, some (_, e)) => .found (pyRound4 (qDiv bs 100)) e.q e.a e.id

/-! ### Argmax characterization of `faq_lookup` (claim C5) -/

theorem le_foldl_max (l : List ℚ) (x : ℚ) : x ≤ l.foldl max x := by
  induction l generalizing x with
  | nil => exact le_refl x
  | cons y l ih => exact le_trans (le_max_left x y) (ih (max x y))

theorem tsrS_nonneg (a b : String) : 0 ≤ tsrS a b := tsr_nonneg a.data b.data

theorem entryScore_nonneg (env : Env) (query fq : String) :
    0 ≤ entryScore env query fq := by
  unfold entryScore
  split
  · exact tsrS_nonneg _ _
  · rename_i s ss heq
    have hs : s ∈ (expand_query_with_glossary env query).map (fun v => tsrS v fq) := by
      rw [heq]; exact List.mem_cons_self _ _
    obtain ⟨v, _, hv⟩ := List.mem_map.mp hs
    exact le_trans (hv ▸ tsrS_nonneg v fq) (le_foldl_max ss s)

theorem faqScan_fst_ge (env : Env) (query : String) :
    ∀ (L : List FaqEntry) (i : ℕ) (bs : ℚ) (bi : Option (ℕ × FaqEntry)),
      bs ≤ (faqScan env query L i bs bi).1 ∧
      ∀ e ∈ L, entryScore env query e.q ≤ (faqScan env query L i bs bi).1 := by
  intro L
  induction L with
  | nil => intro i bs bi; exact ⟨le_refl _, by simp⟩
  | cons e es ih =>
    intro i bs bi
    simp only [faqScan]
    by_cases h : bs < entryScore env query e.q
    · rw [if_pos h]
      obtain ⟨h1, h2⟩ := ih (i + 1) (entryScore env query e.q) (some (i, e))
      refine ⟨le_trans (le_of_lt h) h1, ?_⟩
      intro e2 he2
      rcases List.mem_cons.mp he2 with rfl | hmem
      · exact h1
      · exact h2 e2 hmem
    · rw [if_neg h]
      obtain ⟨h1, h2⟩ := ih (i + 1) bs bi
      refine ⟨h1, ?_⟩
      intro e2 he2
      rcases List.mem_cons.mp he2 with rfl | hmem
      · exact le_trans (not_lt.mp h) h1
      · exact h2 e2 hmem

theorem faqScan_cases (env : Env) (query : String) :
    ∀ (L : List FaqEntry) (i : ℕ) (bs : ℚ) (bi : Option (ℕ × FaqEntry)),
      faqScan env query L i bs bi = (bs, bi) ∨
      ∃ j e, L.get? j = some e ∧
        faqScan env query L i bs bi =
          (entryScore env query e.q, some (i + j, e)) ∧
        bs < entryScore env query e.q ∧
        ∀ k ek, k < j → L.get? k = some ek →
          entryScore env query ek.q < entryScore env query e.q := by
  intro L
  induction L with
  | nil => intro i bs bi; left; rfl
  | cons e es ih =>
    intro i bs bi
    simp only [faqScan]
    by_cases h : bs < entryScore env query e.q
    · rw [if_pos h]
      right
      rcases ih (i + 1) (entryScore env query e.q) (some (i, e)) with
        hL | ⟨j, e2, hget, heq, hlt, hprev⟩
      · refine ⟨0, e, rfl, ?_, h, ?_⟩
        · rw [hL, Nat.add_zero]
        · intro k ek hk
          exact absurd hk (Nat.not_lt_zero k)
      · refine ⟨j + 1, e2, by simpa using hget, ?_, lt_trans h hlt, ?_⟩
        · rw [show i + (j + 1) = (i + 1) + j from by omega, heq]
        · intro k ek hk hget2
          cases k with
          | zero =>
            have hek : e = ek := by simpa using hget2
            subst hek
            exact hlt
          | succ k2 =>
            exact hprev k2 ek (by omega) (by simpa using hget2)
    · rw [if_neg h]
      rcases ih (i + 1) bs bi with hL | ⟨j, e2, hget, heq, hlt, hprev⟩
      · left; exact hL
      · right
        refine ⟨j + 1, e2, by simpa using hget, ?_, hlt, ?_⟩
        · rw [show i + (j + 1) = (i + 1) + j from by omega, heq]
        · intro k ek hk hget2
          cases k with
          | zero =>
            have hek : e = ek := by simpa using hget2
            subst hek
            exact lt_of_le_of_lt (not_lt.mp h) hlt
          | succ k2 =>
            exact hprev k2 ek (by omega) (by simpa using hget2)

/-- C5: `faq_lookup` returns `{found:false, score:0}` exactly when the FAQ
corpus is empty; on a non-empty corpus it always returns `found` with the
entry whose per-entry maximum glossary-expanded variant similarity is
globally largest, earliest corpus entry winning ties, and with score equal
to that winning similarity divided by 100, rounded to four decimals. -/
theorem claim_C5 (env : Env) (query : String) :
    (faq_lookup env query = .notFound ↔ env.faq = []) ∧
    (env.faq ≠ [] →
      ∃ i e, env.faq.get? i = some e ∧
        faq_lookup env query =
          .found (pyRound4 (qDiv (entryScore env query e.q) 100)) e.q e.a e.id ∧
        (∀ j ej, env.faq.get? j = some ej →
          entryScore env query ej.q ≤ entryScore env query e.q) ∧
        (∀ j ej, env.faq.get? j = some ej → j < i →
          entryScore env query ej.q < entryScore env query e.q)) := by
  cases hL : env.faq with
  | nil =>
    constructor
    · constructor
      · intro _; rfl
      · intro _
        unfold faq_lookup
        rw [hL]
        rfl
    · intro h
      exact absurd rfl h
  | cons e0 es =>
    rcases faqScan_cases env query (e0 :: es) 0 (-1) none with
      hcontra | ⟨j, e, hget, heq, _, hprev⟩
    · exfalso
      have hge := (faqScan_fst_ge env query (e0 :: es) 0 (-1) none).2 e0
        (List.mem_cons_self _ _)
      rw [hcontra] at hge
      have := entryScore_nonneg env query e0.q
      dsimp at hge
      linarith
    · constructor
      · constructor
        · intro hNF
          unfold faq_lookup at hNF
          rw [hL, heq] at hNF
          simp at hNF
        · intro hnil
          cases hnil
      · intro _
        refine ⟨j, e, hget, ?_, ?_, ?_⟩
        · unfold faq_lookup
          rw [hL, heq]
        · intro k ek hget2
          have hmem : ek ∈ e0 :: es := List.get?_mem hget2
          have := (faqScan_fst_ge env query (e0 :: es) 0 (-1) none).2 ek hmem
          rw [heq] at this
          exact this
        · intro k ek hget2 hk
          exact hprev k ek hk hget2

/-- FAQ corpus for the C5 witness. -/
def envC5 : Env :=
  { faq := [⟨"1", "fees", "Pay at the office."⟩, ⟨"2", "zz", "Other."⟩],
    glossary := [], workflows := [], policies := fun _ => none }

example : faq_lookup envC5 "fees" = .found 1 "fees" "Pay at the office." "1" := by
  decide

/-- Witness for C5 on a concrete two-entry corpus. -/
theorem claim_C5_witness :
    envC5.faq ≠ [] ∧
    (∃ i e, envC5.faq.get? i = some e ∧
      faq_lookup envC5 "fees" =
        .found (pyRound4 (qDiv (entryScore envC5 "fees" e.q) 100)) e.q e.a e.id ∧
      (∀ j ej, envC5.faq.get? j = some ej →
        entryScore envC5 "fees" ej.q ≤ entryScore envC5 "fees" e.q) ∧
      (∀ j ej, envC5.faq.get? j = some ej → j < i →
        entryScore envC5 "fees" ej.q < entryScore envC5 "fees" e.q)) :=
  ⟨by decide, (claim_C5 envC5 "fees").2 (by decide)⟩

/-! ### PolicyDocumentParser (`parse_policy_markdown`, claim C4) -/

/-- Scanner states for the multiline-regex scanners: at a line start,
inside a line being copied, inside the `\s+` run of a matched heading
pattern, or inside the trailing `.*` of a matched heading pattern. -/
inductive ScanState where
  | lineStart : ScanState
  | midLine : ScanState
  | skipWs : ScanState
  | skipRest : ScanState
deriving DecidableEq

/-- Scanner modelling `re.sub(r"^#\s+.*$", "", ·, flags=re.M)`: at every
line start, a `#` followed by one whitespace character starts a match that
removes the greedy whitespace run (which may cross newlines) and then the
rest of that line; everything else is copied. The `$` is zero-width, so
the terminating newline is kept. -/
def removeH1Go : ScanState → List Char → List Char
  | _, [] => []
  | .lineStart, '#' :: c :: rest =>
    if pyIsSpace c then removeH1Go .skipWs (c :: rest)
    else '#' :: removeH1Go .midLine (c :: rest)
  | .lineStart, c :: rest =>
    c :: removeH1Go (if c = '\n' then .lineStart else .midLine) rest
  | .midLine, c :: rest =>
    c :: removeH1Go (if c = '\n' then .lineStart else .midLine) rest
  | .skipWs, c :: rest =>
    if pyIsSpace c then removeH1Go .skipWs rest
    else removeH1Go .skipRest rest
  | .skipRest, c :: rest =>
    if c = '\n' then c :: removeH1Go .lineStart rest
    else removeH1Go .skipRest rest

/-- Removes every top-level-heading match from a block. -/
def removeH1 (l : List Char) : List Char := removeH1Go .lineStart l

/-- Group 1 of the title regex `^#\s+(.*)$`: after the greedy whitespace
run following `#`, the characters up to the next newline. -/
def titleAfterHash (l : List Char) : List Char :=
  (l.dropWhile pyIsSpace).takeWhile (fun c => c ≠ '\n')

/-- Scanner modelling `re.search(r"^#\s+(.*)$", ·, flags=re.M)`: try the
pattern at every line start, returning the first match's group 1. -/
def findTitleGo : Bool → List Char → Option (List Char)
  | _, [] => none
  | true, '#' :: c :: rest =>
    if pyIsSpace c then some (titleAfterHash (c :: rest))
    else findTitleGo false (c :: rest)
  | true, c :: rest => findTitleGo (c = '\n') rest
  | false, c :: rest => findTitleGo (c = '\n') rest

/-- First `^#\s+(.*)$` match of the document, if any. -/
def findTitle (l : List Char) : Option (List Char) := findTitleGo true l

/-- Does this text begin a second-level heading (`##` then whitespace)?
Lookahead of the block split regex. -/
def isH2Start : List Char → Bool
  | '#' :: '#' :: c :: _ => pyIsSpace c
  | _ => false

/-- Scanner for `re.split(r"\n(?=##\s+)", ·)`: the accumulator holds the
reversed characters of the current block; each newline directly followed
by a second-level heading is consumed as a separator. -/
def splitBlocksGo : List Char → List Char → List (List Char)
  | acc, [] => [acc.reverse]
  | acc, c :: rest =>
    if c = '\n' && isH2Start rest then acc.reverse :: splitBlocksGo [] rest
    else splitBlocksGo (c :: acc) rest

/-- Split a document into blocks at every second-level heading line. -/
def splitBlocks (l : List Char) : List (List Char) := splitBlocksGo [] l

/-- Index of the last newline of `t`, if any. -/
def lastNLIdx (t : List Char) : Option ℕ :=
  match t.reverse.findIdx? (fun c => c = '\n') with
  | none => none
  | some r => some (t.length - 1 - r)

/-- Models `re.match(r"^##\s+(.*)\n(.*)$", block, flags=re.S|re.M)` on the
text `t` after the `##` marker. With `re.S` the greedy group 1 runs to the
last newline the backtracking engine can still reach: the pattern matches
iff `t` starts with whitespace and has a newline at a positive index `j`
(the last one); group 1 is then the text between the whitespace run
(clipped to `j`) and position `j`, group 2 the text after position `j`. -/
def h2MatchBody (t : List Char) : Option (List Char × List Char) :=
  match t with
  | [] => none
  | c :: _ =>
    if pyIsSpace c then
      match lastNLIdx t with
      | none => none
      | some j =>
        if j = 0 then none
        else
          let w := (t.takeWhile pyIsSpace).length
          some ((t.drop (min w j)).take (j - min w j), t.drop (j + 1))
    else none

/-- Per-block step of the parser's section loop: strip top-level heading
lines, strip whitespace, and keep the block only when the second-level
heading pattern matches, taking the stripped groups as heading and body. -/
def blockToSection (block : List Char) : Option PolicySection :=
  match pyStrip (removeH1 block) with
  | '#' :: '#' :: t =>
    match h2MatchBody t with
    | some (g1, g2) => some ⟨⟨pyStrip g1⟩, ⟨pyStrip g2⟩⟩
    | none => none
  | _ => none

/-- Embeds `parse_policy_markdown` from `app.py`. -/
def parse_policy_markdown (content : String) : String × List PolicySection :=
  let title : String :=
    match findTitle content.data with
    | some t => ⟨pyStrip t⟩
    | none => "Policy"
  (title, (splitBlocks (pyStrip content.data)).filterMap blockToSection)

-- sanity checks mirroring the Python reference behaviour
example : parse_policy_markdown "# T\n\n## A\n\n## B\nx" =
    ("T", [⟨"B", "x"⟩]) := by decide

/-- C4 (code bug): on the spec's own example the parser does produce the
claimed result, but on a section with a two-line body the DOTALL greedy
group of `^##\s+(.*)\n(.*)$` absorbs every body line but the last into the
heading: parsing `"## A\nb1\nb2"` yields heading `"A\nb1"` and body
`"b2"`, not heading `"A"` and body `"b1\nb2"` as the claim states. -/
theorem claim_C4 :
    parse_policy_markdown "# Title\n\n## A\nbody1\n\n## B\nbody2" =
      ("Title", [⟨"A", "body1"⟩, ⟨"B", "body2"⟩]) ∧
    parse_policy_markdown "## A\nb1\nb2" = ("Policy", [⟨"A\nb1", "b2"⟩]) := by
  exact ⟨by decide, by decide⟩

/-! ### PolicyFetch (`policy_fetch`, claim C3) -/

/-- Does the first list occur at the head of the second? -/
def startsList : List Char → List Char → Bool
  | [], _ => true
  | _ :: _, [] => false
  | a :: as, c :: cs => a == c && startsList as cs

/-- Models Python's substring test `needle in hay`. -/
def pyIn : List Char → List Char → Bool
  | n, [] => n.isEmpty
  | n, c :: cs => startsList n (c :: cs) || pyIn n cs

/-- String-level wrapper for `pyIn`. -/
def pyInS (needle hay : String) : Bool := pyIn needle.data hay.data

/-- Result dictionary of `policy_fetch`: `notFound topic` is
`{found:False, topic}`, `sectionHit topic title section body` the specific
section dictionary, `whole topic title sections` the whole-policy
dictionary. -/
inductive PolicyResult where
  | notFound : String → PolicyResult
  | sectionHit : String → String → String → String → PolicyResult
  | whole : String → String → List PolicySection → PolicyResult
deriving DecidableEq

/-- Models `pol.get("found")` truthiness. -/
def PolicyResult.foundB : PolicyResult → Bool
  | .notFound _ => false
  | .sectionHit _ _ _ _ => true
  | .whole _ _ _ => true

/-- One section test of the `policy_fetch` loop: bidirectional substring
match between the lowercased stripped heading and the target. -/
def sectionMatches (target : List Char) (sec : PolicySection) : Bool :=
  let h := (pyStrip sec.heading.data).map pyLower
  pyIn target h || pyIn h target

/-- The `for sec in sections` loop of `policy_fetch`: first match wins. -/
def findSection (target : List Char) : List PolicySection → Option PolicySection
  | [] => none
  | sec :: rest =>
    if sectionMatches target sec then some sec else findSection target rest

theorem findSection_eq_find? (target : List Char) (l : List PolicySection) :
    findSection target l = l.find? (sectionMatches target) := by
  induction l with
  | nil => rfl
  | cons s rest ih =>
    rw [findSection, List.find?_cons]
    by_cases h : sectionMatches target s
    · simp [h]
    · simp [h, ih]

/-- Body of `policy_fetch` after the `split("#", 1)`: slugify the topic,
read the policy file (`if not content` also treats an empty file as
missing), parse, and resolve a requested section with whole-document
fallback. -/
def policy_fetch_core (env : Env) (topic sectionQ : List Char) : PolicyResult :=
  let topic_slug := slugifyS ⟨topic⟩
  match env.policies topic_slug with
  | none => .notFound topic_slug
  | some content =>
    if content = "" then .notFound topic_slug
    else
      let ps := parse_policy_markdown content
      if sectionQ ≠ [] then
        let target := (pyStrip sectionQ).map pyLower
        match findSection target ps.2 with
        | some sec => .sectionHit topic_slug ps.1 sec.heading sec.body
        | none => .whole topic_slug ps.1 ps.2
      else .whole topic_slug ps.1 ps.2

/-- Embeds `policy_fetch` from `app.py`: strip the input, split at the
first `#` when present, then run the body. -/
def policy_fetch (env : Env) (topic_or_section : String) : PolicyResult :=
  let s := pyStrip topic_or_section.data
  if s.contains '#' then
    policy_fetch_core env (s.takeWhile (fun c => c ≠ '#'))
      ((s.dropWhile (fun c => c ≠ '#')).drop 1)
  else policy_fetch_core env s []

theorem takeWhile_append_of_all (p : Char → Bool) (l1 l2 : List Char)
    (h : ∀ c ∈ l1, p c = true) :
    (l1 ++ l2).takeWhile p = l1 ++ l2.takeWhile p := by
  induction l1 with
  | nil => rfl
  | cons a l1 ih =>
    rw [List.cons_append, List.takeWhile_cons, h a (by simp)]
    simp only [if_true]
    rw [ih (fun c hc => h c (by simp [hc])), List.cons_append]

theorem dropWhile_append_of_all (p : Char → Bool) (l1 l2 : List Char)
    (h : ∀ c ∈ l1, p c = true) :
    (l1 ++ l2).dropWhile p = l2.dropWhile p := by
  induction l1 with
  | nil => rfl
  | cons a l1 ih =>
    rw [List.cons_append, List.dropWhile_cons, h a (by simp)]
    simp only [if_true]
    exact ih (fun c hc => h c (by simp [hc]))

theorem policy_fetch_split (env : Env) (input : String) (topic sectionQ : List Char)
    (hsplit : pyStrip input.data = topic ++ '#' :: sectionQ)
    (htopic : topic.contains '#' = false) :
    policy_fetch env input = policy_fetch_core env topic sectionQ := by
  have hnotmem : '#' ∉ topic := by
    intro hmem
    have h2 : topic.contains '#' = true := List.elem_iff.mpr hmem
    rw [htopic] at h2
    cases h2
  have hall : ∀ c ∈ topic, (fun x => decide (x ≠ '#')) c = true := by
    intro c hc
    simp only [decide_eq_true_eq]
    intro hEq
    subst hEq
    exact hnotmem hc
  have hcontains : (topic ++ '#' :: sectionQ).contains '#' = true :=
    List.elem_iff.mpr (List.mem_append_right _ (List.mem_cons_self _ _))
  unfold policy_fetch
  rw [hsplit]
  dsimp only
  rw [hcontains]
  simp only [eq_self_iff_true, if_true]
  rw [takeWhile_append_of_all _ _ _ hall, dropWhile_append_of_all _ _ _ hall]
  rw [List.takeWhile_cons, List.dropWhile_cons]
  simp

/-- C3: on an input `"<topic>#<section>"` whose topic resolves to an
existing (non-empty) policy document, `policy_fetch` returns `found:true`
with the first section in document order whose lowercased heading contains
the lowercased requested text or is contained in it; and when no section
matches, it falls back to `found:true` with the title and the full ordered
section list instead of `found:false`. -/
theorem claim_C3 (env : Env) (input : String) (topic sectionQ : List Char)
    (hsplit : pyStrip input.data = topic ++ '#' :: sectionQ)
    (htopic : topic.contains '#' = false)
    (hsecne : sectionQ ≠ [])
    (content : String)
    (hcontent : env.policies (slugifyS ⟨topic⟩) = some content)
    (hne : content ≠ "") :
    (∀ sec, (parse_policy_markdown content).2.find?
        (sectionMatches ((pyStrip sectionQ).map pyLower)) = some sec →
      policy_fetch env input = .sectionHit (slugifyS ⟨topic⟩)
        (parse_policy_markdown content).1 sec.heading sec.body) ∧
    ((parse_policy_markdown content).2.find?
        (sectionMatches ((pyStrip sectionQ).map pyLower)) = none →
      policy_fetch env input = .whole (slugifyS ⟨topic⟩)
        (parse_policy_markdown content).1 (parse_policy_markdown content).2) := by
  have hpf := policy_fetch_split env input topic sectionQ hsplit htopic
  constructor
  · intro sec hfind
    rw [hpf]
    unfold policy_fetch_core
    simp only [hcontent]
    rw [if_neg hne, if_pos hsecne, findSection_eq_find?, hfind]
  · intro hfind
    rw [hpf]
    unfold policy_fetch_core
    simp only [hcontent]
    rw [if_neg hne, if_pos hsecne, findSection_eq_find?, hfind]

/-- Policy document for the C3 and C10 witnesses. -/
def docC3 : String := "# Att\n\n## Medical\nbody"

/-- Environment with one policy document, for the C3 and C10 witnesses. -/
def envC3 : Env :=
  { faq := [], glossary := [], workflows := [],
    policies := fun s => if s = "attendance" then some docC3 else none }

example : policy_fetch envC3 " attendance#medic" =
    .sectionHit "attendance" "Att" "Medical" "body" := by decide

example : policy_fetch envC3 "attendance#zzz" =
    .whole "attendance" "Att" [⟨"Medical", "body"⟩] := by decide

/-- Witness for C3 on a concrete one-document store. -/
theorem claim_C3_witness :
    (pyStrip " attendance#medic".data = "attendance".data ++ '#' :: "medic".data) ∧
    ("attendance".data.contains '#' = false) ∧
    ("medic".data ≠ []) ∧
    (envC3.policies (slugifyS ⟨"attendance".data⟩) = some docC3) ∧
    (docC3 ≠ "") ∧
    ((∀ sec, (parse_policy_markdown docC3).2.find?
        (sectionMatches ((pyStrip "medic".data).map pyLower)) = some sec →
      policy_fetch envC3 " attendance#medic" = .sectionHit (slugifyS ⟨"attendance".data⟩)
        (parse_policy_markdown docC3).1 sec.heading sec.body) ∧
     ((parse_policy_markdown docC3).2.find?
        (sectionMatches ((pyStrip "medic".data).map pyLower)) = none →
      policy_fetch envC3 " attendance#medic" = .whole (slugifyS ⟨"attendance".data⟩)
        (parse_policy_markdown docC3).1 (parse_policy_markdown docC3).2)) :=
  ⟨by decide, by decide, by decide, by decide, by decide,
   claim_C3 envC3 " attendance#medic" "attendance".data "medic".data (by decide)
     (by decide) (by decide) docC3 (by decide) (by decide)⟩

/-! ### WorkflowGuide, evidence trail, and the router -/

/-- Result dictionary of `workflow_guide`: `found id name steps
required_docs template_id score` or `{found:False}`. -/
inductive WfResult where
  | notFound : WfResult
  | found : String → String → List String → List String → Option String → ℚ → WfResult
deriving DecidableEq

/-- Models `wf.get("found")` truthiness. -/
def WfResult.foundB : WfResult → Bool
  | .notFound => false
  | .found _ _ _ _ _ _ => true

/-- Per-entry score of `workflow_guide`: the larger of the name and id
token-set similarities (`name_sc if name_sc > id_sc else id_sc`). -/
def wfEntryScore (query : String) (w : Workflow) : ℚ :=
  let name_sc := tsrS query (normalizeS w.name)
  let id_sc := tsrS query (normalizeS w.id)
  if id_sc < name_sc then name_sc else id_sc

/-- Best-entry scan of `workflow_guide`: `best` starts at `-1`; the
`idx = -1` sentinel together with the later `WORKFLOWS[idx]` access is
modelled as an `Option` holding the best entry. -/
def wfScan (query : String) : List Workflow → ℚ → Option Workflow → ℚ × Option Workflow
  | [], best, bw => (best, bw)
  | w :: ws, best, bw =>
    let sc := wfEntryScore query w
    if best < sc then wfScan query ws sc (some w)
    else wfScan query ws best bw

/-- Embeds `workflow_guide` from `app.py`. -/
def workflow_guide (env : Env) (name_or_id : String) : WfResult :=
  let query := normalizeS name_or_id
  match wfScan query env.workflows (-1) none with
  | (_, none) => .notFound
  | (best, some w) =>
    .found w.id w.name w.steps w.required_docs w.template_id (pyRound4 (qDiv best 100))

/-- One evidence-trail record: a `(tool-name, result)` pair of
`naive_router`, or the fixed `("Notice", {"info": "No-LLM mode
(offline)."})` entry appended by `ask`. -/
inductive Evidence where
  | policyFetch : PolicyResult → Evidence
  | faqLookup : FaqResult → Evidence
  | workflowGuide : WfResult → Evidence
  | notice : Evidence
deriving DecidableEq

/-- The router's policy trigger words. -/
def policy_triggers : List String :=
  ["policy", "rule", "attendance", "plagiarism", "leave", "discipline"]

/-- Does any policy trigger occur in the normalized question? -/
def policyTriggered (qn : String) : Bool :=
  policy_triggers.any (fun k => pyInS k qn)

/-- Topic resolution of the policy branch. -/
def policyTopic (qn : String) : String :=
  if pyInS "attend" qn then "attendance"
  else if pyInS "plag" qn then "plagiarism"
  else "attendance"

/-- The router's workflow trigger phrases. -/
def wf_triggers : List String :=
  ["how to", "how do i", "steps", "apply", "process", "re-eval", "reeval",
   "re-evaluation", "transcript"]

/-- Does any workflow trigger phrase occur in the normalized question? -/
def wfTriggered (qn : String) : Bool :=
  wf_triggers.any (fun k => pyInS k qn)

/-- Workflow key rule: `"reval" if ("re" in qn and "val" in qn) else
"transcript"`. -/
def wfKey (qn : String) : String :=
  if pyInS "re" qn && pyInS "val" qn then "reval" else "transcript"

/-- The FAQ acceptance threshold `0.72`, written in kernel-computable
form; `threshold_eq` ties it to the literal. -/
def threshold : ℚ := Rat.divInt 72 100

theorem threshold_eq : threshold = 0.72 := by
  unfold threshold
  rw [Rat.divInt_eq_div]
  norm_num

/-- Numbered step lines `f"{i}. {s}"`, counting from `n`. -/
def numberedLines : ℕ → List String → List String
  | _, [] => []
  | n, s :: ss => (toString n ++ ". " ++ s) :: numberedLines (n + 1) ss

/-- Workflow answer format: bolded name, numbered steps, and a final
`Required docs: ...` line when the document list is non-empty. -/
def formatWf (name : String) (steps docs : List String) : String :=
  String.intercalate "\n" (("**" ++ name ++ "**") :: numberedLines 1 steps ++
    (if docs.isEmpty then [] else ["Required docs: " ++ String.intercalate ", " docs]))

/-- Single-section policy answer `# title\n\n## section\n\nbody`. -/
def sectionAnswer (title sec body : String) : String :=
  "# " ++ title ++ "\n\n## " ++ sec ++ "\n\n" ++ body

/-- Whole-policy answer: `# title` followed by every section as
`## heading\n\nbody`, joined with blank lines. -/
def wholePolicyAnswer (title : String) (secs : List PolicySection) : String :=
  String.intercalate "\n\n"
    (("# " ++ title) :: secs.map (fun s => "## " ++ s.heading ++ "\n\n" ++ s.body))

/-- The fixed refusal string of the router's fallback branch. -/
def fallbackAnswer : String := "I don't have this in my static knowledge."

/-- Workflow branch and fallback of `naive_router` (code after the FAQ
threshold test). -/
def afterFaq (env : Env) (qn : String) (steps : List Evidence) :
    String × List Evidence :=
  if wfTriggered qn then
    let wf := workflow_guide env (wfKey qn)
    let steps2 := steps ++ [Evidence.workflowGuide wf]
    match wf with
    | .found _ name wsteps docs _ _ => (formatWf name wsteps docs, steps2)
    | .notFound => (fallbackAnswer, steps2)
  else (fallbackAnswer, steps)

/-- FAQ branch of `naive_router` (code after the policy branch). -/
def afterPolicy (env : Env) (question qn : String) (steps : List Evidence) :
    String × List Evidence :=
  let faq := faq_lookup env question
  let steps2 := steps ++ [Evidence.faqLookup faq]
  if faq.foundB = true ∧ threshold ≤ faq.score then (faq.answer, steps2)
  else afterFaq env qn steps2

/-- Embeds `naive_router` from `app.py`: policy branch with early return,
then FAQ branch, then workflow branch, then fallback. -/
def naive_router (env : Env) (question : String) : String × List Evidence :=
  let qn := normalizeS question
  if policyTriggered qn then
    let pol := policy_fetch env (policyTopic qn)
    let steps := [Evidence.policyFetch pol]
    match pol with
    | .sectionHit _ title sec body => (sectionAnswer title sec body, steps)
    | .whole _ title secs => (wholePolicyAnswer title secs, steps)
    | .notFound _ => afterPolicy env question qn steps
  else afterPolicy env question qn []

/-- Embeds `ask` from `app.py`: run the router and append the fixed
notice evidence entry. -/
def ask (env : Env) (question : String) : String × List Evidence :=
  let r := naive_router env question
  (r.1, r.2 ++ [Evidence.notice])

/-! ### Router branch claims (C1, C2, C6, C7, C10) -/

theorem afterFaq_snd (env : Env) (qn : String) (steps : List Evidence) :
    ∃ rest, (afterFaq env qn steps).2 = steps ++ rest := by
  unfold afterFaq
  by_cases h : wfTriggered qn = true
  · rw [if_pos h]
    dsimp only
    cases hw : workflow_guide env (wfKey qn) with
    | notFound => exact ⟨[Evidence.workflowGuide .notFound], rfl⟩
    | found a b c d e f => exact ⟨[Evidence.workflowGuide (.found a b c d e f)], rfl⟩
  · rw [if_neg h]
    exact ⟨[], (List.append_nil steps).symm⟩

theorem afterPolicy_snd (env : Env) (question qn : String) (steps : List Evidence) :
    ∃ rest, (afterPolicy env question qn steps).2 = steps ++ rest := by
  unfold afterPolicy
  dsimp only
  by_cases hc : (faq_lookup env question).foundB = true ∧
      threshold ≤ (faq_lookup env question).score
  · rw [if_pos hc]
    exact ⟨[Evidence.faqLookup (faq_lookup env question)], rfl⟩
  · rw [if_neg hc]
    obtain ⟨rest, hrest⟩ :=
      afterFaq_snd env qn (steps ++ [Evidence.faqLookup (faq_lookup env question)])
    exact ⟨[Evidence.faqLookup (faq_lookup env question)] ++ rest,
      by rw [hrest, List.append_assoc]⟩

theorem router_policy_fallthrough (env : Env) (question : String)
    (hP : policyTriggered (normalizeS question) = false ∨
      (policy_fetch env (policyTopic (normalizeS question))).foundB = false) :
    naive_router env question = afterPolicy env question (normalizeS question)
      (if policyTriggered (normalizeS question) = true
       then [Evidence.policyFetch (policy_fetch env (policyTopic (normalizeS question)))]
       else []) := by
  unfold naive_router
  dsimp only
  by_cases h : policyTriggered (normalizeS question) = true
  · rw [if_pos h, if_pos h]
    rcases hP with h2 | h2
    · rw [h] at h2
      cases h2
    · cases hpol : policy_fetch env (policyTopic (normalizeS question)) with
      | notFound t => rfl
      | sectionHit t ti se bo =>
        rw [hpol] at h2
        simp [PolicyResult.foundB] at h2
      | whole t ti secs =>
        rw [hpol] at h2
        simp [PolicyResult.foundB] at h2
  · rw [if_neg h, if_neg h]

/-- C2: when a policy trigger word occurs in the normalized question, the
router calls `policy_fetch` on the resolved topic and its evidence record
heads the trail whether or not the fetch succeeds; it returns immediately
(the trail is exactly the one record) precisely when the fetch found a
document, and on `found:false` control falls through to the FAQ branch
with the record retained. -/
theorem claim_C2 (env : Env) (question : String)
    (htrig : policyTriggered (normalizeS question) = true) :
    ((naive_router env question).2.head? =
      some (Evidence.policyFetch (policy_fetch env (policyTopic (normalizeS question))))) ∧
    (∀ t title sec body,
      policy_fetch env (policyTopic (normalizeS question)) = .sectionHit t title sec body →
      naive_router env question = (sectionAnswer title sec body,
        [Evidence.policyFetch (.sectionHit t title sec body)])) ∧
    (∀ t title secs,
      policy_fetch env (policyTopic (normalizeS question)) = .whole t title secs →
      naive_router env question = (wholePolicyAnswer title secs,
        [Evidence.policyFetch (.whole t title secs)])) ∧
    (∀ t, policy_fetch env (policyTopic (normalizeS question)) = .notFound t →
      naive_router env question = afterPolicy env question (normalizeS question)
        [Evidence.policyFetch (.notFound t)]) := by
  unfold naive_router
  dsimp only
  rw [if_pos htrig]
  refine ⟨?_, ?_, ?_, ?_⟩
  · cases hpol : policy_fetch env (policyTopic (normalizeS question)) with
    | notFound t =>
      obtain ⟨rest, hrest⟩ := afterPolicy_snd env question (normalizeS question)
        [Evidence.policyFetch (.notFound t)]
      rw [hrest]
      rfl
    | sectionHit t ti se bo => rfl
    | whole t ti secs => rfl
  · intro t ti se bo hpol
    rw [hpol]
  · intro t ti secs hpol
    rw [hpol]
  · intro t hpol
    rw [hpol]

/-- Witness for C2 on a concrete question with a policy trigger. -/
theorem claim_C2_witness :
    policyTriggered (normalizeS "attendance policy") = true ∧
    (((naive_router envC3 "attendance policy").2.head? =
      some (Evidence.policyFetch
        (policy_fetch envC3 (policyTopic (normalizeS "attendance policy"))))) ∧
    (∀ t title sec body,
      policy_fetch envC3 (policyTopic (normalizeS "attendance policy")) =
        .sectionHit t title sec body →
      naive_router envC3 "attendance policy" = (sectionAnswer title sec body,
        [Evidence.policyFetch (.sectionHit t title sec body)])) ∧
    (∀ t title secs,
      policy_fetch envC3 (policyTopic (normalizeS "attendance policy")) =
        .whole t title secs →
      naive_router envC3 "attendance policy" = (wholePolicyAnswer title secs,
        [Evidence.policyFetch (.whole t title secs)])) ∧
    (∀ t, policy_fetch envC3 (policyTopic (normalizeS "attendance policy")) =
        .notFound t →
      naive_router envC3 "attendance policy" = afterPolicy envC3 "attendance policy"
        (normalizeS "attendance policy") [Evidence.policyFetch (.notFound t)])) :=
  ⟨by decide, claim_C2 envC3 "attendance policy" (by decide)⟩

/-- C1: whenever the policy branch did not return (no trigger, or the
fetch found nothing), the router calls `faq_lookup`, appends its
`FAQLookup` evidence record, returns the stored answer verbatim exactly
when `found` holds and the score is at least 0.72, and otherwise proceeds
to the workflow branch exactly like a miss. -/
theorem claim_C1 (env : Env) (question : String)
    (hP : policyTriggered (normalizeS question) = false ∨
      (policy_fetch env (policyTopic (normalizeS question))).foundB = false) :
    (∃ rest, (naive_router env question).2 =
      (if policyTriggered (normalizeS question) = true
       then [Evidence.policyFetch (policy_fetch env (policyTopic (normalizeS question)))]
       else []) ++ Evidence.faqLookup (faq_lookup env question) :: rest) ∧
    ((faq_lookup env question).foundB = true ∧
        (0.72 : ℚ) ≤ (faq_lookup env question).score →
      naive_router env question = ((faq_lookup env question).answer,
        (if policyTriggered (normalizeS question) = true
         then [Evidence.policyFetch (policy_fetch env (policyTopic (normalizeS question)))]
         else []) ++ [Evidence.faqLookup (faq_lookup env question)])) ∧
    (¬((faq_lookup env question).foundB = true ∧
        (0.72 : ℚ) ≤ (faq_lookup env question).score) →
      naive_router env question = afterFaq env (normalizeS question)
        ((if policyTriggered (normalizeS question) = true
          then [Evidence.policyFetch (policy_fetch env (policyTopic (normalizeS question)))]
          else []) ++ [Evidence.faqLookup (faq_lookup env question)])) := by
  have hred := router_policy_fallthrough env question hP
  rw [hred]
  unfold afterPolicy
  dsimp only
  rw [← threshold_eq]
  by_cases hc : (faq_lookup env question).foundB = true ∧
      threshold ≤ (faq_lookup env question).score
  · rw [if_pos hc]
    exact ⟨⟨[], rfl⟩, fun _ => rfl, fun hn => absurd hc hn⟩
  · rw [if_neg hc]
    refine ⟨?_, fun hyes => absurd hyes hc, fun _ => rfl⟩
    obtain ⟨rest, hrest⟩ := afterFaq_snd env (normalizeS question)
      ((if policyTriggered (normalizeS question) = true
        then [Evidence.policyFetch (policy_fetch env (policyTopic (normalizeS question)))]
        else []) ++ [Evidence.faqLookup (faq_lookup env question)])
    exact ⟨rest, by rw [hrest, List.append_assoc, List.singleton_append]⟩

/-- Witness for C1: no policy trigger, exact FAQ hit above threshold. -/
theorem claim_C1_witness :
    (policyTriggered (normalizeS "fees") = false ∨
      (policy_fetch envC5 (policyTopic (normalizeS "fees"))).foundB = false) ∧
    ((∃ rest, (naive_router envC5 "fees").2 =
      (if policyTriggered (normalizeS "fees") = true
       then [Evidence.policyFetch (policy_fetch envC5 (policyTopic (normalizeS "fees")))]
       else []) ++ Evidence.faqLookup (faq_lookup envC5 "fees") :: rest) ∧
    ((faq_lookup envC5 "fees").foundB = true ∧
        (0.72 : ℚ) ≤ (faq_lookup envC5 "fees").score →
      naive_router envC5 "fees" = ((faq_lookup envC5 "fees").answer,
        (if policyTriggered (normalizeS "fees") = true
         then [Evidence.policyFetch (policy_fetch envC5 (policyTopic (normalizeS "fees")))]
         else []) ++ [Evidence.faqLookup (faq_lookup envC5 "fees")])) ∧
    (¬((faq_lookup envC5 "fees").foundB = true ∧
        (0.72 : ℚ) ≤ (faq_lookup envC5 "fees").score) →
      naive_router envC5 "fees" = afterFaq envC5 (normalizeS "fees")
        ((if policyTriggered (normalizeS "fees") = true
          then [Evidence.policyFetch (policy_fetch envC5 (policyTopic (normalizeS "fees")))]
          else []) ++ [Evidence.faqLookup (faq_lookup envC5 "fees")]))) :=
  ⟨Or.inl (by decide), claim_C1 envC5 "fees" (Or.inl (by decide))⟩

example : naive_router envC5 "fees" =
    ("Pay at the office.",
     [Evidence.faqLookup (.found 1 "fees" "Pay at the office." "1")]) := by decide

theorem faq_miss_not_cond (env : Env) (question : String)
    (hF : (faq_lookup env question).foundB = false ∨
      (faq_lookup env question).score < 0.72) :
    ¬((faq_lookup env question).foundB = true ∧
      threshold ≤ (faq_lookup env question).score) := by
  rintro ⟨h1, h2⟩
  rcases hF with hf | hf
  · rw [hf] at h1
    cases h1
  · rw [threshold_eq] at h2
    exact absurd hf (not_lt.mpr h2)

/-- C6: when the question reaches the workflow branch and a workflow
trigger phrase occurs, the key is `"reval"` iff the normalized question
contains both `"re"` and `"val"` (else `"transcript"`), `workflow_guide`
is called on that key with its evidence recorded, and on `found` the
answer is the bolded name, the steps numbered from 1, and — only when
`required_docs` is non-empty — a final comma-joined `Required docs:` line. -/
theorem claim_C6 (env : Env) (question : String)
    (hP : policyTriggered (normalizeS question) = false ∨
      (policy_fetch env (policyTopic (normalizeS question))).foundB = false)
    (hF : (faq_lookup env question).foundB = false ∨
      (faq_lookup env question).score < 0.72)
    (hT : wfTriggered (normalizeS question) = true) :
    (wfKey (normalizeS question) =
      if (pyInS "re" (normalizeS question) && pyInS "val" (normalizeS question)) = true
      then "reval" else "transcript") ∧
    (naive_router env question).2 =
      (if policyTriggered (normalizeS question) = true
       then [Evidence.policyFetch (policy_fetch env (policyTopic (normalizeS question)))]
       else []) ++
      [Evidence.faqLookup (faq_lookup env question),
       Evidence.workflowGuide (workflow_guide env (wfKey (normalizeS question)))] ∧
    (∀ id name ws docs tid sc,
      workflow_guide env (wfKey (normalizeS question)) = .found id name ws docs tid sc →
      (naive_router env question).1 =
        String.intercalate "\n" (("**" ++ name ++ "**") :: numberedLines 1 ws ++
          (if docs.isEmpty then []
           else ["Required docs: " ++ String.intercalate ", " docs]))) := by
  have hred := router_policy_fallthrough env question hP
  have hnc := faq_miss_not_cond env question hF
  rw [hred]
  unfold afterPolicy
  dsimp only
  rw [if_neg hnc]
  unfold afterFaq
  dsimp only
  rw [if_pos hT]
  refine ⟨rfl, ?_, ?_⟩
  · cases hw : workflow_guide env (wfKey (normalizeS question)) with
    | notFound => simp
    | found a b c d e f => simp
  · intro id name ws docs tid sc hw
    rw [hw]
    rfl

/-- Workflow corpus for the C6 witness. -/
def envC6 : Env :=
  { faq := [], glossary := [],
    workflows := [⟨"transcript", "Transcript Request", ["s1", "s2"], ["ID card"], none⟩],
    policies := fun _ => none }

example : naive_router envC6 "How to get transcript?" =
    ("**Transcript Request**\n1. s1\n2. s2\nRequired docs: ID card",
     [Evidence.faqLookup .notFound,
      Evidence.workflowGuide
        (.found "transcript" "Transcript Request" ["s1", "s2"] ["ID card"] none 1)]) := by
  decide

/-- Witness for C6 on a concrete workflow corpus. -/
theorem claim_C6_witness :
    (policyTriggered (normalizeS "How to get transcript?") = false ∨
      (policy_fetch envC6 (policyTopic (normalizeS "How to get transcript?"))).foundB = false) ∧
    ((faq_lookup envC6 "How to get transcript?").foundB = false ∨
      (faq_lookup envC6 "How to get transcript?").score < 0.72) ∧
    wfTriggered (normalizeS "How to get transcript?") = true ∧
    ((wfKey (normalizeS "How to get transcript?") =
      if (pyInS "re" (normalizeS "How to get transcript?") &&
          pyInS "val" (normalizeS "How to get transcript?")) = true
      then "reval" else "transcript") ∧
    (naive_router envC6 "How to get transcript?").2 =
      (if policyTriggered (normalizeS "How to get transcript?") = true
       then [Evidence.policyFetch
         (policy_fetch envC6 (policyTopic (normalizeS "How to get transcript?")))]
       else []) ++
      [Evidence.faqLookup (faq_lookup envC6 "How to get transcript?"),
       Evidence.workflowGuide
         (workflow_guide envC6 (wfKey (normalizeS "How to get transcript?")))] ∧
    (∀ id name ws docs tid sc,
      workflow_guide envC6 (wfKey (normalizeS "How to get transcript?")) =
        .found id name ws docs tid sc →
      (naive_router envC6 "How to get transcript?").1 =
        String.intercalate "\n" (("**" ++ name ++ "**") :: numberedLines 1 ws ++
          (if docs.isEmpty then []
           else ["Required docs: " ++ String.intercalate ", " docs])))) :=
  ⟨Or.inl (by decide), Or.inl (by decide), by decide,
   claim_C6 envC6 "How to get transcript?" (Or.inl (by decide)) (Or.inl (by decide))
     (by decide)⟩

/-- C7: when no branch returns — the policy branch falls through, the FAQ
lookup misses or scores under 0.72, and the workflow branch has no trigger
or no match — the router returns exactly the fixed refusal string together
with the evidence accumulated so far. -/
theorem claim_C7 (env : Env) (question : String)
    (hP : policyTriggered (normalizeS question) = false ∨
      (policy_fetch env (policyTopic (normalizeS question))).foundB = false)
    (hF : (faq_lookup env question).foundB = false ∨
      (faq_lookup env question).score < 0.72)
    (hW : wfTriggered (normalizeS question) = false ∨
      (workflow_guide env (wfKey (normalizeS question))).foundB = false) :
    (naive_router env question).1 = "I don't have this in my static knowledge." ∧
    (naive_router env question).2 =
      (if policyTriggered (normalizeS question) = true
       then [Evidence.policyFetch (policy_fetch env (policyTopic (normalizeS question)))]
       else []) ++
      Evidence.faqLookup (faq_lookup env question) ::
        (if wfTriggered (normalizeS question) = true
         then [Evidence.workflowGuide (workflow_guide env (wfKey (normalizeS question)))]
         else []) := by
  have hred := router_policy_fallthrough env question hP
  have hnc := faq_miss_not_cond env question hF
  rw [hred]
  unfold afterPolicy
  dsimp only
  rw [if_neg hnc]
  unfold afterFaq
  dsimp only
  by_cases hT : wfTriggered (normalizeS question) = true
  · rw [if_pos hT, if_pos hT]
    rcases hW with hw | hw
    · rw [hT] at hw
      cases hw
    · cases hwf : workflow_guide env (wfKey (normalizeS question)) with
      | notFound => exact ⟨rfl, by simp⟩
      | found a b c d e f =>
        rw [hwf] at hw
        simp [WfResult.foundB] at hw
  · rw [if_neg hT, if_neg hT]
    exact ⟨rfl, by simp⟩

/-- Empty environment for the C7 witness. -/
def envC7 : Env :=
  { faq := [], glossary := [], workflows := [], policies := fun _ => none }

example : naive_router envC7 "hello" =
    ("I don't have this in my static knowledge.",
     [Evidence.faqLookup .notFound]) := by decide

/-- Witness for C7 on a question matching nothing. -/
theorem claim_C7_witness :
    (policyTriggered (normalizeS "hello") = false ∨
      (policy_fetch envC7 (policyTopic (normalizeS "hello"))).foundB = false) ∧
    ((faq_lookup envC7 "hello").foundB = false ∨
      (faq_lookup envC7 "hello").score < 0.72) ∧
    (wfTriggered (normalizeS "hello") = false ∨
      (workflow_guide envC7 (wfKey (normalizeS "hello"))).foundB = false) ∧
    ((naive_router envC7 "hello").1 = "I don't have this in my static knowledge." ∧
    (naive_router envC7 "hello").2 =
      (if policyTriggered (normalizeS "hello") = true
       then [Evidence.policyFetch (policy_fetch envC7 (policyTopic (normalizeS "hello")))]
       else []) ++
      Evidence.faqLookup (faq_lookup envC7 "hello") ::
        (if wfTriggered (normalizeS "hello") = true
         then [Evidence.workflowGuide (workflow_guide envC7 (wfKey (normalizeS "hello")))]
         else [])) :=
  ⟨Or.inl (by decide), Or.inl (by decide), Or.inl (by decide),
   claim_C7 envC7 "hello" (Or.inl (by decide)) (Or.inl (by decide)) (Or.inl (by decide))⟩

theorem policy_fetch_no_hash (env : Env) (input : String)
    (h : (pyStrip input.data).contains '#' = false) :
    policy_fetch env input = policy_fetch_core env (pyStrip input.data) [] := by
  unfold policy_fetch
  dsimp only
  rw [h]
  simp

theorem policy_fetch_core_no_section (env : Env) (topic : List Char) :
    ∀ t title sec body,
      policy_fetch_core env topic [] ≠ .sectionHit t title sec body := by
  intro t title sec body
  unfold policy_fetch_core
  dsimp only
  cases env.policies (slugifyS ⟨topic⟩) with
  | none =>
    intro h
    cases h
  | some content =>
    dsimp only
    by_cases hc : content = ""
    · rw [if_pos hc]
      intro h
      cases h
    · rw [if_neg hc]
      rw [if_neg (by simp : ¬(([] : List Char) ≠ []))]
      intro h
      cases h

/-- C10 (implicit): the router only ever calls `policy_fetch` with the
bare topics `"attendance"` or `"plagiarism"`, which contain no `#`, so no
section is ever requested through `ask`; consequently the fetched policy
is never a section hit, and every policy-branch answer produced by `ask`
has the whole-document format. -/
theorem claim_C10 (env : Env) (question : String)
    (htrig : policyTriggered (normalizeS question) = true) :
    (policyTopic (normalizeS question) = "attendance" ∨
      policyTopic (normalizeS question) = "plagiarism") ∧
    ((policyTopic (normalizeS question)).data.contains '#' = false) ∧
    (∀ t title sec body,
      policy_fetch env (policyTopic (normalizeS question)) ≠ .sectionHit t title sec body) ∧
    (∀ t title secs,
      policy_fetch env (policyTopic (normalizeS question)) = .whole t title secs →
      (ask env question).1 = wholePolicyAnswer title secs) := by
  have hTop : policyTopic (normalizeS question) = "attendance" ∨
      policyTopic (normalizeS question) = "plagiarism" := by
    unfold policyTopic
    by_cases h1 : pyInS "attend" (normalizeS question) = true
    · rw [if_pos h1]
      exact Or.inl rfl
    · rw [if_neg h1]
      by_cases h2 : pyInS "plag" (normalizeS question) = true
      · rw [if_pos h2]
        exact Or.inr rfl
      · rw [if_neg h2]
        exact Or.inl rfl
  have hNoSec : ∀ t title sec body,
      policy_fetch env (policyTopic (normalizeS question)) ≠ .sectionHit t title sec body := by
    rcases hTop with h | h <;> rw [h]
    · rw [policy_fetch_no_hash env "attendance" (by decide)]
      exact policy_fetch_core_no_section env _
    · rw [policy_fetch_no_hash env "plagiarism" (by decide)]
      exact policy_fetch_core_no_section env _
  refine ⟨hTop, ?_, hNoSec, ?_⟩
  · rcases hTop with h | h <;> rw [h] <;> decide
  · intro t title secs hpol
    unfold ask
    dsimp only
    unfold naive_router
    dsimp only
    rw [if_pos htrig, hpol]

/-- Witness for C10 on the one-document policy store. -/
theorem claim_C10_witness :
    policyTriggered (normalizeS "attendance policy") = true ∧
    ((policyTopic (normalizeS "attendance policy") = "attendance" ∨
      policyTopic (normalizeS "attendance policy") = "plagiarism") ∧
    ((policyTopic (normalizeS "attendance policy")).data.contains '#' = false) ∧
    (∀ t title sec body,
      policy_fetch envC3 (policyTopic (normalizeS "attendance policy")) ≠
        .sectionHit t title sec body) ∧
    (∀ t title secs,
      policy_fetch envC3 (policyTopic (normalizeS "attendance policy")) =
        .whole t title secs →
      (ask envC3 "attendance policy").1 = wholePolicyAnswer title secs)) :=
  ⟨by decide, claim_C10 envC3 "attendance policy" (by decide)⟩

example : ask envC3 "attendance policy" =
    ("# Att\n\n## Medical\n\nbody",
     [Evidence.policyFetch (.whole "attendance" "Att" [⟨"Medical", "body"⟩]),
      Evidence.notice]) := by decide
